import Mathlib

set_option maxRecDepth 100000

/-!
Verification of the ghost-stack code-intelligence layer.

The development shallowly embeds the parts of the `ghoststack` package that
the properties below are about:

* `ghoststack/brain/index.py` (`CodeIndex`: `add_chunk`, `search`,
  `get_related_files`, `remove_file`),
* `ghoststack/brain/ingestor.py` (`FileIngestor`: `_chunk_python`,
  `_chunk_by_lines`, `_chunk_file`, `index_file`, `index_all`),
* `ghoststack/brain/embeddings.py` (`EmbeddingModel` fallback state),
* `ghoststack/commands/review.py` (`_calculate_risk_level`).

Python strings are modelled by `String` with code-point based helpers
(`pyLen`, `pySlice`, `pyReplace`, ...), Python dicts by insertion-ordered
association lists (`dictGet`, `dictSet`).

External backends are abstracted as parameters, never as stubs of repo code:
`hashContent` stands for `hashlib.sha256(...).hexdigest()[:16]`, `embed` for
the embedding backend, and `dist` for ChromaDB's distance function.  The
theorems quantify over these parameters; concrete executable instantiations
(`hashC`, `embedC`, `distC`) are only used to evaluate the model on concrete
inputs.
-/

namespace GhostStack

/-- Model of Python `len(s)`: number of code points. -/
def pyLen (s : String) : Nat := s.data.length

/-- Model of Python `s[a:b]` for non-negative bounds (clamped at the end). -/
def pySlice (s : String) (a b : Nat) : String :=
  String.mk ((s.data.drop a).take (b - a))

/-- Model of Python `s.replace(a, b)` for one-character pattern and
replacement: a per-character map. -/
def pyReplace (s : String) (a b : Char) : String :=
  String.mk (s.data.map (fun c => if c = a then b else c))

/-- Model of Python `sep.join(xs)`. -/
def pyJoin (sep : String) : List String → String
  | [] => ""
  | [x] => x
  | x :: xs => x ++ sep ++ pyJoin sep xs

/-- Accumulator-style worker for `pySplitNl`. -/
def pySplitNlAux : List Char → List Char → List String
  | acc, [] => [String.mk acc.reverse]
  | acc, c :: cs =>
    if c = '\n' then String.mk acc.reverse :: pySplitNlAux [] cs
    else pySplitNlAux (c :: acc) cs

/-- Model of Python `content.split("\n")`. -/
def pySplitNl (s : String) : List String := pySplitNlAux [] s.data

/-- Model of Python dict lookup `d.get(k)` (keys are strings). -/
def dictGet {α : Type} : List (String × α) → String → Option α
  | [], _ => none
  | (k1, v1) :: rest, k => if k1 = k then some v1 else dictGet rest k

/-- Model of Python dict assignment `d[k] = v`: replaces the value of an
existing key in place, otherwise appends (dicts are insertion-ordered). -/
def dictSet {α : Type} : List (String × α) → String → α → List (String × α)
  | [], k, v => [(k, v)]
  | (k1, v1) :: rest, k, v =>
    if k1 = k then (k1, v) :: rest else (k1, v1) :: dictSet rest k v

/-- Model of Python `d.values()` in insertion order. -/
def dictValues {α : Type} (d : List (String × α)) : List α := d.map Prod.snd

/-!
Document ids (`ghoststack/brain/index.py`).
-/

/-- Sanitisation applied to every document id:
`.replace("/", "_").replace(".", "_")`. -/
def sanitize (s : String) : String := pyReplace (pyReplace s '/' '_') '.' '_'

/-- Whole-file document id, as computed by `CodeIndex.add_file`,
`CodeIndex.get_related_files` and `CodeIndex.remove_file`:
`file_path.replace("/", "_").replace(".", "_")`. -/
def fileDocId (file_path : String) : String := sanitize file_path

/-- Per-chunk document id, as computed by `CodeIndex.add_chunk`:
`f"{file_path}::{chunk_id}".replace("/", "_").replace(".", "_")`. -/
def chunkDocId (file_path chunk_id : String) : String :=
  sanitize (file_path ++ "::" ++ chunk_id)

/-!
Chunking (`ghoststack/brain/ingestor.py`).
-/

/-- Constant `CHUNK_SIZE` of `ingestor.py`. -/
def CHUNK_SIZE : Nat := 2000

/-- Constant `CHUNK_OVERLAP` of `ingestor.py`. -/
def CHUNK_OVERLAP : Nat := 200

/-- Metadata attached to a chunk by the three chunking paths. -/
inductive ChunkMeta where
  | full_file
  | window (chunk_num start_char end_char : Nat)
  | pydef (ty nm : String) (start_line end_line : Nat)
  | module
  deriving Repr, DecidableEq

/-- One chunk as produced by `_chunk_python` / `_chunk_by_lines`:
a dict with keys `id`, `content` and `metadata`. -/
structure Chunk where
  id : String
  content : String
  cmeta : ChunkMeta
  deriving Repr, DecidableEq

/-- While-loop of `_chunk_by_lines` for contents longer than `CHUNK_SIZE`:
starting at `start`, emit `content[start : start + CHUNK_SIZE]` and advance
by `CHUNK_SIZE - CHUNK_OVERLAP` while `start < len(content)`.  The loop is
written with explicit fuel; the stride is `1800 > 0`, so
`pyLen content + 1` units of fuel always run the loop to completion. -/
def chunkWindows (content : String) : Nat → Nat → Nat → List Chunk
  | 0, _, _ => []
  | fuel + 1, start, num =>
    if start < pyLen content then
      { id := "chunk_" ++ toString num,
        content := pySlice content start (start + CHUNK_SIZE),
        cmeta := .window num start (min (start + CHUNK_SIZE) (pyLen content)) } ::
        chunkWindows content fuel (start + (CHUNK_SIZE - CHUNK_OVERLAP)) (num + 1)
    else []

/-- Model of `FileIngestor._chunk_by_lines`: one `full` chunk when the
content fits in `CHUNK_SIZE`, otherwise overlapping windows. -/
def chunk_by_lines (content : String) : List Chunk :=
  if pyLen content ≤ CHUNK_SIZE then
    [{ id := "full", content := content, cmeta := .full_file }]
  else chunkWindows content (pyLen content + 1) 0 0

/-- Kind of a Python definition node found by `ast.walk`. -/
inductive PyDefKind where
  | func
  | asyncFunc
  | cls
  deriving Repr, DecidableEq

/-- One `FunctionDef` / `AsyncFunctionDef` / `ClassDef` node, as read by
`_chunk_python` from the `ast` parse tree (`lineno` is 1-based). -/
structure PyDef where
  name : String
  kind : PyDefKind
  lineno : Nat
  end_lineno : Nat
  deriving Repr, DecidableEq

/-- Model of `FileIngestor._chunk_python`.  The Python `ast` library is
external; its outcome is a parameter: `none` models `ast.parse` raising
`SyntaxError`, `some defs` a successful parse whose walk yields `defs`
(the function/class nodes, in walk order). -/
def chunk_python (content : String) (parsed : Option (List PyDef)) : List Chunk :=
  match parsed with
  | none => chunk_by_lines content
  | some defs =>
    let lines := pySplitNl content
    let chunks := defs.map (fun d =>
      ({ id := d.name,
         content := pyJoin ("\n") ((lines.drop (d.lineno - 1)).take (d.end_lineno - (d.lineno - 1))),
         cmeta := ChunkMeta.pydef (if d.kind = PyDefKind.cls then "class" else "function")
           d.name d.lineno d.end_lineno } : Chunk))
    if chunks.isEmpty then
      [{ id := "module", content := pySlice content 0 CHUNK_SIZE, cmeta := .module }]
    else chunks

/-- Model of `SUPPORTED_EXTENSIONS.get(ext, "unknown")`. -/
def langOf (ext : String) : String :=
  if ext = ".py" then "python"
  else if ext = ".ts" ∨ ext = ".tsx" then "typescript"
  else if ext = ".js" ∨ ext = ".jsx" then "javascript"
  else if ext = ".go" then "go"
  else if ext = ".rs" then "rust"
  else if ext = ".java" then "java"
  else if ext = ".rb" then "ruby"
  else if ext = ".php" then "php"
  else if ext = ".c" ∨ ext = ".h" then "c"
  else if ext = ".cpp" ∨ ext = ".hpp" then "cpp"
  else if ext = ".cs" then "csharp"
  else if ext = ".swift" then "swift"
  else if ext = ".kt" then "kotlin"
  else if ext = ".scala" then "scala"
  else "unknown"

/-- Model of `FileIngestor._chunk_file`: Python files go through the
structural chunker, every other language through `_chunk_by_lines`. -/
def chunk_file (ext content : String) (parsed : Option (List PyDef)) : List Chunk :=
  if langOf ext = "python" then chunk_python content parsed
  else chunk_by_lines content

/-!
The vector store (`ghoststack/brain/index.py`).  The ChromaDB collection is
modelled as an insertion-ordered association list from document id to the
stored document.  `Emb` is the (abstract) type of embedding vectors.
-/

/-- One stored ChromaDB document: content, embedding, and the metadata
fields that `CodeIndex` reads back (`file_path`, `chunk_id`,
`content_hash`).  Extra metadata (language, chunk positions, ...) is
carried by the real store but never read by the functions modelled here. -/
structure Doc (Emb : Type) where
  content : String
  emb : Emb
  file_path : String
  chunk_id : Option String
  content_hash : String
  deriving Repr, DecidableEq

/-- The ChromaDB collection. -/
abbrev Store (Emb : Type) := List (String × Doc Emb)

/-- One formatted search result, as produced by `CodeIndex.search`. -/
structure SearchResult where
  id : String
  file_path : String
  chunk_id : Option String
  content : String
  distance : Int
  deriving Repr, DecidableEq

section Index

variable {Emb : Type}
variable (hashContent : String → String)
variable (embed : String → Emb)
variable (dist : Emb → Emb → Int)

/-- Model of `CodeIndex.add_chunk`.  Returns the document id, the new store,
and whether an embedding was computed and the document written (the early
return on an identical `content_hash` does neither). -/
def add_chunk (store : Store Emb) (file_path chunk_id content : String) :
    String × Store Emb × Bool :=
  let doc_id := chunkDocId file_path chunk_id
  let h := hashContent content
  match dictGet store doc_id with
  | some d =>
    if d.content_hash = h then (doc_id, store, false)
    else
      (doc_id,
        dictSet store doc_id
          { content := content, emb := embed content, file_path := file_path,
            chunk_id := some chunk_id, content_hash := h },
        true)
  | none =>
    (doc_id,
      dictSet store doc_id
        { content := content, emb := embed content, file_path := file_path,
          chunk_id := some chunk_id, content_hash := h },
      true)

/-- ChromaDB `Collection.delete(ids=[doc_id])`: removes the documents whose
id matches and silently ignores ids that are not present; it raises no
exception for a missing id. -/
def storeDelete (store : Store Emb) (doc_id : String) : Store Emb :=
  store.filter (fun kv => kv.1 ≠ doc_id)

/-- Model of `CodeIndex.remove_file`.  The `except` branch that returns
`False` is reachable only if `Collection.delete` raises, which it does not
do for a missing id (see `storeDelete`), so the call always returns `True`
together with the store with the whole-file document removed. -/
def remove_file (store : Store Emb) (file_path : String) : Bool × Store Emb :=
  (true, storeDelete store (fileDocId file_path))

/-- Stable insertion (ascending by `distance`) used to model sorting of
results; Python's `sorted` and ChromaDB's ranking are both stable ascending
orders on the distance. -/
def insertByDist (r : SearchResult) : List SearchResult → List SearchResult
  | [] => [r]
  | x :: xs => if x.distance ≤ r.distance then x :: insertByDist r xs else r :: x :: xs

/-- Stable sort of search results, ascending by `distance`. -/
def sortByDist : List SearchResult → List SearchResult
  | [] => []
  | x :: xs => insertByDist x (sortByDist xs)

/-- Model of `CodeIndex.search`: embed the query, drop documents whose
`file_path` is in `file_filter` (the `$nin` where-filter, built only when
the filter list is non-empty), rank the rest by distance to the query
embedding, keep `n_results`, and format. -/
def search (store : Store Emb) (query : String) (n_results : Nat)
    (file_filter : List String) : List SearchResult :=
  let qe := embed query
  let candidates :=
    if file_filter.isEmpty then store
    else store.filter (fun kv => ¬ file_filter.contains kv.2.file_path)
  let results := candidates.map (fun kv =>
    ({ id := kv.1, file_path := kv.2.file_path, chunk_id := kv.2.chunk_id,
       content := kv.2.content, distance := dist qe kv.2.emb } : SearchResult))
  (sortByDist results).take n_results

/-- Inner loop body of `CodeIndex.get_related_files`: a match is recorded in
the `related` dict only if its path is not a changed file, keeping the
smaller distance when the path was already recorded. -/
def considerMatch (changed : List String) (rel : List (String × SearchResult))
    (m : SearchResult) : List (String × SearchResult) :=
  if m.file_path ∈ changed then rel
  else
    match dictGet rel m.file_path with
    | none => dictSet rel m.file_path m
    | some old => if m.distance < old.distance then dictSet rel m.file_path m else rel

/-- Outer loop of `CodeIndex.get_related_files`, building the `related`
dict: for each changed file, look up its whole-file document id; when a
document with non-empty content is found, search with its first 2000
characters (excluding the changed files) and fold the matches in. -/
def relatedFold (store : Store Emb) (changed : List String) (n_results : Nat) :
    List (String × SearchResult) :=
  changed.foldl
    (fun rel fp =>
      match dictGet store (fileDocId fp) with
      | none => rel
      | some d =>
        if d.content = "" then rel
        else
          (search embed dist store (pySlice d.content 0 2000)
              (n_results + changed.length) changed).foldl
            (considerMatch changed) rel)
    []

/-- Model of `CodeIndex.get_related_files`: the `related` dict's values,
sorted ascending by distance. -/
def get_related_files (store : Store Emb) (changed : List String)
    (n_results : Nat) : List SearchResult :=
  sortByDist (dictValues (relatedFold embed dist store changed n_results))

end Index

/-!
The ingestor (`ghoststack/brain/ingestor.py`).
-/

/-- One file on disk, as seen by `FileIngestor.index_file`: its path
relative to the repo root, its lowercased suffix, the text read with
`errors="replace"`, the whole-file hash `_hash_file(path)` (sha256 of the
raw bytes, abstracted), and, for Python files, the outcome of `ast.parse`
(see `chunk_python`). -/
structure PyFile where
  rel_path : String
  ext : String
  content : String
  fileHash : String
  parsed : Option (List PyDef)
  deriving Repr, DecidableEq

/-- State threaded through the ingestor: the `_hash_cache` dict and the
ChromaDB store. -/
structure IngestState (Emb : Type) where
  cache : List (String × String)
  store : Store Emb
  deriving Repr, DecidableEq

section Ingest

variable {Emb : Type}
variable (hashContent : String → String)
variable (embed : String → Emb)

/-- Chunk-and-upsert phase of `index_file`: chunk the content and feed every
chunk to `add_chunk`.  Returns `len(chunks)` and the new state (the hash
cache is not touched in this phase). -/
def indexChunks (st : IngestState Emb) (f : PyFile) : Nat × IngestState Emb :=
  let chunks := chunk_file f.ext f.content f.parsed
  let store := chunks.foldl
    (fun s ch => (add_chunk hashContent embed s f.rel_path ch.id ch.content).2.1)
    st.store
  (chunks.length, { st with store := store })

/-- Model of `FileIngestor.index_file`.  With `force = False` the current
whole-file hash is compared against the cache: on a match the call returns
`0` untouched, otherwise the cache entry is set and the file is re-chunked
and upserted.  With `force = True` the hash check — and with it the cache
assignment — is skipped entirely. -/
def index_file (st : IngestState Emb) (f : PyFile) (force : Bool) :
    Nat × IngestState Emb :=
  if force then indexChunks hashContent embed st f
  else if dictGet st.cache f.rel_path = some f.fileHash then (0, st)
  else
    indexChunks hashContent embed
      { st with cache := dictSet st.cache f.rel_path f.fileHash } f

/-- A store populated exclusively through `index_file`: fold `index_file`
(with arbitrary per-file `force` flags) over a list of files, starting from
an empty cache and an empty store. -/
def ingestAll (files : List (PyFile × Bool)) : IngestState Emb :=
  files.foldl (fun st pf => (index_file hashContent embed st pf.1 pf.2).2)
    { cache := [], store := [] }

end Ingest

/-!
Risk scoring (`ghoststack/commands/review.py`).
-/

/-- One changed file as parsed from `git diff --numstat` by
`_get_diff_files`: `f.get("additions", 0)` / `f.get("deletions", 0)`
default to `0` when the keys are absent. -/
structure ChangedFile where
  additions : Nat
  deletions : Nat
  deriving Repr, DecidableEq

/-- Total diff size `sum(f.get("additions", 0) + f.get("deletions", 0))`. -/
def totalChanges (changed_files : List ChangedFile) : Nat :=
  changed_files.foldl (fun n f => n + (f.additions + f.deletions)) 0

/-- Model of `_calculate_risk_level`: three scoring blocks (changeset size,
file count, related files), then the score is mapped to a level.  Each
block is an `if/elif` pair adding 2 or 1 points; only some branches append
a reason string. -/
def calculate_risk_level (changed_files : List ChangedFile)
    (related_files : List SearchResult) : String × List String :=
  let total_changes := totalChanges changed_files
  let nfiles := changed_files.length
  let nrel := related_files.length
  let p1 : Nat × List String :=
    if total_changes > 500 then
      (2, [("Large changeset (" ++ toString total_changes ++ " lines)")])
    else if total_changes > 100 then (1, [])
    else (0, [])
  let p2 : Nat × List String :=
    if nfiles > 10 then
      (p1.1 + 2, p1.2 ++ [("Many files changed (" ++ toString nfiles ++ ")")])
    else if nfiles > 5 then (p1.1 + 1, p1.2)
    else p1
  let p3 : Nat × List String :=
    if nrel > 3 then
      (p2.1 + 2, p2.2 ++ [("Found " ++ toString nrel ++ " potentially impacted files not in diff")])
    else if nrel > 0 then
      (p2.1 + 1, p2.2 ++ [("Found " ++ toString nrel ++ " related file(s)")])
    else p2
  if p3.1 ≥ 4 then ("High", p3.2)
  else if p3.1 ≥ 2 then ("Medium", p3.2)
  else ("Low", p3.2)

/-!
The embedding model's fallback state (`ghoststack/brain/embeddings.py`).
The sentence-transformers backend is external; each call takes the
success/failure of the backend operations as boolean inputs.
-/

/-- Mutable state of an `EmbeddingModel` instance: `self._fallback` and
whether `self._model` is loaded. -/
structure EmbeddingModelState where
  fallback : Bool
  modelLoaded : Bool
  deriving Repr, DecidableEq

/-- Model of `EmbeddingModel.__init__(model_name, use_fallback)`. -/
def initEmbeddingModel (use_fallback : Bool) : EmbeddingModelState :=
  { fallback := use_fallback, modelLoaded := false }

/-- Model of the `model` property: raises when in fallback mode, returns
the cached model when loaded, otherwise attempts `_get_model` — on failure
it sets `_fallback = True` and re-raises.  Returns the new state and
whether a model object was obtained (i.e. no exception escaped). -/
def modelProp (st : EmbeddingModelState) (loadOk : Bool) :
    EmbeddingModelState × Bool :=
  if st.fallback then (st, false)
  else if st.modelLoaded then (st, true)
  else if loadOk then ({ st with modelLoaded := true }, true)
  else ({ st with fallback := true }, false)

/-- State effect of `EmbeddingModel.embed`: in fallback mode nothing
changes; otherwise a failed model load (inside the `model` property) or a
failed `encode` sets `_fallback = True` via the `except` handler. -/
def embedStep (st : EmbeddingModelState) (loadOk encodeOk : Bool) :
    EmbeddingModelState :=
  if st.fallback then st
  else
    let p := modelProp st loadOk
    if ¬ p.2 then { p.1 with fallback := true }
    else if encodeOk then p.1
    else { p.1 with fallback := true }

/-- State effect of `EmbeddingModel.embed_batch`: an empty input returns
early without touching any state; otherwise the structure is identical to
`embed`. -/
def embedBatchStep (st : EmbeddingModelState) (isEmpty loadOk encodeOk : Bool) :
    EmbeddingModelState :=
  if isEmpty then st else embedStep st loadOk encodeOk

/-- State effect of the `dimension` property: in fallback mode nothing
changes; otherwise any exception (model load failure, or
`get_sentence_embedding_dimension` failing) is swallowed and only a load
failure inside the `model` property mutates state. -/
def dimensionStep (st : EmbeddingModelState) (loadOk _dimOk : Bool) :
    EmbeddingModelState :=
  if st.fallback then st
  else (modelProp st loadOk).1

/-- One call to the public surface of `EmbeddingModel`, together with the
behaviour of the external backend during that call. -/
inductive EmbCall where
  | embedCall (loadOk encodeOk : Bool)
  | embedBatchCall (isEmpty loadOk encodeOk : Bool)
  | dimensionCall (loadOk dimOk : Bool)
  | isFallbackCall
  deriving Repr, DecidableEq

/-- State transition of one call (`is_fallback` is a pure read). -/
def embCallStep (st : EmbeddingModelState) : EmbCall → EmbeddingModelState
  | .embedCall l e => embedStep st l e
  | .embedBatchCall em l e => embedBatchStep st em l e
  | .dimensionCall l d => dimensionStep st l d
  | .isFallbackCall => st

/-- Run a sequence of calls against an `EmbeddingModel` instance. -/
def embRun (st : EmbeddingModelState) (calls : List EmbCall) : EmbeddingModelState :=
  calls.foldl embCallStep st

/-!
Concrete executable stand-ins for the external backends, used only to
evaluate the model on concrete inputs (the theorems themselves quantify
over the backend functions).
-/

/-- Concrete stand-in for the content hash. -/
def hashC (s : String) : String := s

/-- Concrete stand-in for the embedding backend. -/
def embedC (s : String) : Int := Int.ofNat (pyLen s)

/-- Concrete stand-in for ChromaDB's distance. -/
def distC (a b : Int) : Int := (a - b) * (a - b)

/-!
Concrete inputs used to evaluate the model.
-/

/-- A one-character Go file. -/
def c1File : PyFile :=
  { rel_path := "a.go", ext := ".go", content := "x", fileHash := "h1", parsed := none }

/-- The store after indexing `c1File` through `index_file` alone. -/
def c1Store : Store Int := (ingestAll hashC embedC [(c1File, false)]).store

/-- A 2100-character content (unsupported-language file longer than
`CHUNK_SIZE`). -/
def c2content : String := String.mk (List.replicate 2100 'a')

/-- A one-character Go file whose hash is not cached. -/
def c3File : PyFile :=
  { rel_path := "b.go", ext := ".go", content := "y", fileHash := "h3", parsed := none }

/-- A document already stored for `("c.go", "full")` whose `content_hash`
matches `hashC "x"`. -/
def c4doc : Doc Int :=
  { content := "x", emb := 1, file_path := "c.go", chunk_id := some ("full"),
    content_hash := hashC ("x") }

/-- A store holding exactly `c4doc`. -/
def c4store : Store Int := [(chunkDocId ("c.go") ("full"), c4doc)]

/-- Six changed files totalling 204 diff lines: the `+1` branches for
more than 100 lines and more than 5 files both fire. -/
def c6files : List ChangedFile := List.replicate 6 { additions := 17, deletions := 17 }

/-- A whole-file document for `main.go` (as `add_file` would store it). -/
def c10doc1 : Doc Int :=
  { content := "y", emb := embedC ("y"), file_path := "main.go", chunk_id := none,
    content_hash := hashC ("y") }

/-- A whole-file document for `lib.go`. -/
def c10doc2 : Doc Int :=
  { content := "z", emb := embedC ("z"), file_path := "lib.go", chunk_id := none,
    content_hash := hashC ("z") }

/-- A store holding whole-file documents for `main.go` and `lib.go`. -/
def c10store : Store Int := [(fileDocId ("main.go"), c10doc1), (fileDocId ("lib.go"), c10doc2)]

/-- The search result that `get_related_files` produces for `lib.go` when
`main.go` changed. -/
def c10res : SearchResult :=
  { id := fileDocId ("lib.go"), file_path := "lib.go", chunk_id := none, content := "z",
    distance := distC (embedC (pySlice ("y") 0 2000)) (embedC ("z")) }

/-- Character-level action of `sanitize` (both replacements composed). -/
def sanChar (c : Char) : Char := if c = '/' then '_' else if c = '.' then '_' else c

/-- Strings free of the characters that id sanitisation or the `"::"`
separator can conflate ids over. -/
abbrev idSafe (s : String) : Prop := ∀ c ∈ s.data, c ≠ '/' ∧ c ≠ '.' ∧ c ≠ ':'

/-- Invariant of stores populated by `add_chunk` alone: every document id
contains a colon (from the `"::"` separator, which sanitisation keeps). -/
def colonKeys {Emb : Type} (store : Store Emb) : Prop :=
  ∀ kv ∈ store, ':' ∈ (Prod.fst kv : String).data

/-- Invariant of the `related` dict built by `get_related_files`: no
recorded match points at a changed file. -/
def relNotChanged (changed : List String) (rel : List (String × SearchResult)) : Prop :=
  ∀ kv ∈ rel, (Prod.snd kv : SearchResult).file_path ∉ changed

/-!
Helper lemmas: dict model.
-/

theorem dictGet_dictSet_self {α : Type} (d : List (String × α)) (k : String) (v : α) :
    dictGet (dictSet d k v) k = some v := by
  induction d with
  | nil => simp [dictGet, dictSet]
  | cons kv rest ih =>
    obtain ⟨k1, v1⟩ := kv
    by_cases h : k1 = k
    · simp [dictGet, dictSet, h]
    · simp [dictGet, dictSet, h, ih]

theorem mem_dictSet {α : Type} {d : List (String × α)} {k : String} {v : α} {kv : String × α}
    (h : kv ∈ dictSet d k v) : kv ∈ d ∨ kv = (k, v) := by
  induction d with
  | nil => simp [dictSet] at h; simp [h]
  | cons hd rest ih =>
    obtain ⟨k1, v1⟩ := hd
    by_cases hk : k1 = k
    · subst hk
      simp only [dictSet, if_pos rfl] at h
      rcases List.mem_cons.mp h with h1 | h1
      · exact Or.inr h1
      · exact Or.inl (List.mem_cons_of_mem _ h1)
    · simp only [dictSet, if_neg hk] at h
      rcases List.mem_cons.mp h with h1 | h1
      · exact Or.inl (h1 ▸ List.mem_cons_self _ _)
      · rcases ih h1 with h2 | h2
        · exact Or.inl (List.mem_cons_of_mem _ h2)
        · exact Or.inr h2

theorem dictGet_mem {α : Type} {d : List (String × α)} {k : String} {v : α}
    (h : dictGet d k = some v) : (k, v) ∈ d := by
  induction d with
  | nil => simp [dictGet] at h
  | cons hd rest ih =>
    obtain ⟨k1, v1⟩ := hd
    by_cases hk : k1 = k
    · subst hk
      have h' : v1 = v := by simpa [dictGet] using h
      subst h'
      exact List.mem_cons_self _ _
    · simp only [dictGet, if_neg hk] at h
      exact List.mem_cons_of_mem _ (ih h)

theorem mem_dictValues {α : Type} {d : List (String × α)} {r : α} :
    r ∈ dictValues d ↔ ∃ k, (k, r) ∈ d := by
  constructor
  · intro h
    obtain ⟨kv, hkv, he⟩ := List.mem_map.mp h
    exact ⟨kv.1, by rwa [show (kv.1, r) = kv from by rw [← he]]⟩
  · intro ⟨k, hk⟩
    exact List.mem_map.mpr ⟨(k, r), hk, rfl⟩

/-!
Helper lemmas: result sorting.
-/

theorem mem_insertByDist {r x : SearchResult} {l : List SearchResult} :
    x ∈ insertByDist r l ↔ x = r ∨ x ∈ l := by
  induction l with
  | nil => simp [insertByDist]
  | cons y ys ih =>
    simp only [insertByDist]
    split
    · rw [List.mem_cons, ih, List.mem_cons]
      tauto
    · simp [List.mem_cons]

theorem mem_sortByDist {x : SearchResult} {l : List SearchResult} :
    x ∈ sortByDist l ↔ x ∈ l := by
  induction l with
  | nil => simp [sortByDist]
  | cons y ys ih => simp [sortByDist, mem_insertByDist, ih]

/-!
Helper lemmas: id sanitisation.
-/

theorem sanChar_comp (c : Char) :
    (if (if c = '/' then '_' else c) = '.' then '_' else (if c = '/' then '_' else c)) =
      sanChar c := by
  by_cases h1 : c = '/'
  · subst h1; decide
  · by_cases h2 : c = '.' <;> simp [sanChar, h1, h2]

theorem map_sanChar (l : List Char) :
    (l.map (fun c => if c = '/' then '_' else c)).map (fun c => if c = '.' then '_' else c) =
      l.map sanChar := by
  induction l with
  | nil => rfl
  | cons c cs ih =>
    simp only [List.map_cons, ih, List.cons.injEq]
    exact ⟨sanChar_comp c, trivial⟩

theorem sanitize_data (s : String) : (sanitize s).data = s.data.map sanChar := by
  show (s.data.map _).map _ = _
  exact map_sanChar s.data

theorem sanChar_eq_colon {c : Char} (h : sanChar c = ':') : c = ':' := by
  by_cases h1 : c = '/'
  · subst h1; exact absurd h (by decide)
  · by_cases h2 : c = '.'
    · subst h2; exact absurd h (by decide)
    · simpa [sanChar, h1, h2] using h

theorem colon_mem_chunkDocId (fp cid : String) : ':' ∈ (chunkDocId fp cid).data := by
  unfold chunkDocId
  rw [sanitize_data]
  refine List.mem_map.mpr ⟨':', ?_, by decide⟩
  rw [String.data_append, String.data_append]
  have h2 : ':' ∈ ("::" : String).data := by decide
  exact List.mem_append.mpr (Or.inl (List.mem_append.mpr (Or.inr h2)))

theorem colon_not_mem_sanitize {p : String} (h : ':' ∉ p.data) :
    ':' ∉ (sanitize p).data := by
  rw [sanitize_data]
  intro hc
  obtain ⟨c, hc1, hc2⟩ := List.mem_map.mp hc
  exact h ((sanChar_eq_colon hc2) ▸ hc1)

theorem map_eq_self_of {α : Type} (f : α → α) :
    ∀ (l : List α), (∀ c ∈ l, f c = c) → l.map f = l
  | [], _ => rfl
  | c :: cs, h => by
    rw [List.map_cons, h c (List.mem_cons_self c cs),
      map_eq_self_of f cs (fun x hx => h x (List.mem_cons_of_mem c hx))]

theorem sanitize_eq_self {s : String} (h : ∀ c ∈ s.data, c ≠ '/' ∧ c ≠ '.') :
    sanitize s = s := by
  apply String.ext
  rw [sanitize_data]
  exact map_eq_self_of sanChar s.data
    (fun c hc => by obtain ⟨h1, h2⟩ := h c hc; simp [sanChar, h1, h2])

theorem append_sep_inj (c1 c2 : List Char) :
    ∀ (p1 p2 : List Char), ':' ∉ p1 → ':' ∉ p2 →
      p1 ++ ':' :: ':' :: c1 = p2 ++ ':' :: ':' :: c2 → p1 = p2 ∧ c1 = c2 := by
  intro p1
  induction p1 with
  | nil =>
    intro p2 h1 h2 heq
    cases p2 with
    | nil => simpa using heq
    | cons b t =>
      exfalso
      rw [List.nil_append, List.cons_append] at heq
      injection heq with hb ht
      subst hb
      exact h2 (List.mem_cons_self _ _)
  | cons a t ih =>
    intro p2 h1 h2 heq
    cases p2 with
    | nil =>
      exfalso
      rw [List.cons_append, List.nil_append] at heq
      injection heq with hb ht
      exact h1 (hb ▸ List.mem_cons_self a t)
    | cons b t2 =>
      rw [List.cons_append, List.cons_append] at heq
      injection heq with hb ht
      subst hb
      have h1' : ':' ∉ t := fun hc => h1 (List.mem_cons_of_mem _ hc)
      have h2' : ':' ∉ t2 := fun hc => h2 (List.mem_cons_of_mem _ hc)
      obtain ⟨e1, e2⟩ := ih t2 h1' h2' ht
      exact ⟨by rw [e1], e2⟩

theorem chunkDocId_eq_of_safe {p c : String} (hp : idSafe p) (hc : idSafe c) :
    chunkDocId p c = p ++ "::" ++ c := by
  unfold chunkDocId
  apply sanitize_eq_self
  intro ch hch
  rw [String.data_append, String.data_append] at hch
  rcases List.mem_append.mp hch with h | h
  · rcases List.mem_append.mp h with h' | h'
    · exact ⟨(hp ch h').1, (hp ch h').2.1⟩
    · have hcol : ch = ':' := by
        have hdd : ("::" : String).data = [':', ':'] := rfl
        rw [hdd] at h'
        simpa using h'
      subst hcol
      exact ⟨by decide, by decide⟩
  · exact ⟨(hc ch h).1, (hc ch h).2.1⟩

/-!
Helper lemmas: store invariants under ingestion.
-/

theorem add_chunk_fst {Emb : Type} (hashContent : String → String) (embed : String → Emb)
    (store : Store Emb) (fp cid c : String) :
    (add_chunk hashContent embed store fp cid c).1 = chunkDocId fp cid := by
  simp only [add_chunk]
  split
  · split <;> rfl
  · rfl

theorem colonKeys_add_chunk {Emb : Type} {hashContent : String → String} {embed : String → Emb}
    {store : Store Emb} (hs : colonKeys store) (fp cid c : String) :
    colonKeys (add_chunk hashContent embed store fp cid c).2.1 := by
  simp only [add_chunk]
  split
  · split
    · exact hs
    · intro kv hkv
      rcases mem_dictSet hkv with hin | heq
      · exact hs kv hin
      · rw [heq]
        exact colon_mem_chunkDocId fp cid
  · intro kv hkv
    rcases mem_dictSet hkv with hin | heq
    · exact hs kv hin
    · rw [heq]
      exact colon_mem_chunkDocId fp cid

theorem colonKeys_chunks_foldl {Emb : Type} (hashContent : String → String)
    (embed : String → Emb) (rel_path : String) :
    ∀ (chunks : List Chunk) (store : Store Emb), colonKeys store →
      colonKeys (chunks.foldl
        (fun s ch => (add_chunk hashContent embed s rel_path ch.id ch.content).2.1) store)
  | [], _, hs => hs
  | _ :: chs, _, hs =>
    colonKeys_chunks_foldl hashContent embed rel_path chs _ (colonKeys_add_chunk hs _ _ _)

theorem colonKeys_index_file {Emb : Type} {hashContent : String → String} {embed : String → Emb}
    {st : IngestState Emb} (hs : colonKeys st.store) (f : PyFile) (force : Bool) :
    colonKeys (index_file hashContent embed st f force).2.store := by
  have hic : ∀ st1 : IngestState Emb, colonKeys st1.store →
      colonKeys (indexChunks hashContent embed st1 f).2.store := by
    intro st1 h1
    exact colonKeys_chunks_foldl hashContent embed f.rel_path _ _ h1
  simp only [index_file]
  split
  · exact hic st hs
  · split
    · exact hs
    · exact hic _ hs

theorem colonKeys_ingest_foldl {Emb : Type} (hashContent : String → String)
    (embed : String → Emb) :
    ∀ (files : List (PyFile × Bool)) (st : IngestState Emb), colonKeys st.store →
      colonKeys ((files.foldl
        (fun s pf => (index_file hashContent embed s pf.1 pf.2).2) st).store)
  | [], _, hs => hs
  | pf :: rest, _, hs =>
    colonKeys_ingest_foldl hashContent embed rest _ (colonKeys_index_file hs pf.1 pf.2)

theorem colonKeys_ingestAll {Emb : Type} (hashContent : String → String)
    (embed : String → Emb) (files : List (PyFile × Bool)) :
    colonKeys (ingestAll hashContent embed files : IngestState Emb).store :=
  colonKeys_ingest_foldl hashContent embed files { cache := [], store := [] }
    (fun kv hkv => absurd hkv (List.not_mem_nil kv))

/-!
Helper lemmas: get_related_files.
-/

theorem foldl_lookup_none {Emb : Type} (store : Store Emb)
    (g : List (String × SearchResult) → String → Doc Emb → List (String × SearchResult)) :
    ∀ (l : List String) (rel : List (String × SearchResult)),
      (∀ p ∈ l, dictGet store (fileDocId p) = none) →
      l.foldl (fun rel fp =>
        match dictGet store (fileDocId fp) with
        | none => rel
        | some d => g rel fp d) rel = rel := by
  intro l
  induction l with
  | nil => intro rel _; rfl
  | cons p ps ih =>
    intro rel h
    rw [List.foldl_cons]
    simp only [h p (List.mem_cons_self p ps)]
    exact ih rel (fun q hq => h q (List.mem_cons_of_mem _ hq))

theorem relNotChanged_considerMatch {changed : List String}
    {rel : List (String × SearchResult)} (h : relNotChanged changed rel)
    (m : SearchResult) : relNotChanged changed (considerMatch changed rel m) := by
  unfold considerMatch
  split
  · exact h
  · next hm =>
    have hins : relNotChanged changed (dictSet rel m.file_path m) := by
      intro kv hkv
      rcases mem_dictSet hkv with hin | heq
      · exact h kv hin
      · rw [heq]
        exact hm
    split
    · exact hins
    · split
      · exact hins
      · exact h

theorem relNotChanged_matches_foldl (changed : List String) :
    ∀ (ms : List SearchResult) (rel : List (String × SearchResult)),
      relNotChanged changed rel →
      relNotChanged changed (ms.foldl (considerMatch changed) rel)
  | [], _, h => h
  | m :: ms, _, h =>
    relNotChanged_matches_foldl changed ms _ (relNotChanged_considerMatch h m)

theorem relNotChanged_relatedFold {Emb : Type} (embed : String → Emb)
    (dist : Emb → Emb → Int) (store : Store Emb) (changed : List String) (n : Nat) :
    relNotChanged changed (relatedFold embed dist store changed n) := by
  unfold relatedFold
  have H : ∀ (l : List String) (rel : List (String × SearchResult)),
      relNotChanged changed rel →
      relNotChanged changed (l.foldl (fun rel fp =>
        match dictGet store (fileDocId fp) with
        | none => rel
        | some d =>
          if d.content = "" then rel
          else
            (search embed dist store (pySlice d.content 0 2000)
                (n + changed.length) changed).foldl
              (considerMatch changed) rel) rel) := by
    intro l
    induction l with
    | nil => intro rel h; exact h
    | cons p ps ih =>
      intro rel h
      rw [List.foldl_cons]
      apply ih
      cases hd : dictGet store (fileDocId p) with
      | none => exact h
      | some d =>
        dsimp only
        split
        · exact h
        · exact relNotChanged_matches_foldl changed _ rel h
  exact H changed [] (fun kv hkv => absurd hkv (List.not_mem_nil kv))

/-!
Claim theorems.
-/

/-- C1 (counterexample): the claim quantifies over every `changed_files`
set; it fails for a changed path that itself contains the `"::"` separator.
With the store populated exclusively through `index_file` (a single Go file
`a.go`), the changed path `"a.go::full"` sanitises to the stored chunk id
`"a_go::full"`, the whole-file lookup hits, and `get_related_files` returns
a non-empty list. -/
theorem c1_counterexample :
    get_related_files embedC distC c1Store [("a.go::full")] 5 ≠ [] := by decide

/-- C1 (amended): when the vector store is populated exclusively through
`FileIngestor.index_file`, `get_related_files` returns the empty list for
every `changed_files` set whose paths contain no colon: every stored id
contains the `"::"` separator (which sanitisation keeps), while the
whole-file id fetched for such a changed path contains no colon, so the
lookup misses and every changed file is skipped. -/
theorem c1_ingested_store_related_empty {Emb : Type} (hashContent : String → String)
    (embed : String → Emb) (dist : Emb → Emb → Int)
    (files : List (PyFile × Bool)) (changed : List String) (n : Nat)
    (hch : ∀ p ∈ changed, ':' ∉ p.data) :
    get_related_files embed dist (ingestAll hashContent embed files).store changed n = [] := by
  have hstore := colonKeys_ingestAll hashContent embed files
  have hnone : ∀ p ∈ changed,
      dictGet (ingestAll hashContent embed files).store (fileDocId p) = none := by
    intro p hp
    cases hres : dictGet (ingestAll hashContent embed files).store (fileDocId p) with
    | none => rfl
    | some d =>
      exact absurd (hstore _ (dictGet_mem hres)) (colon_not_mem_sanitize (hch p hp))
  have hfold : relatedFold embed dist (ingestAll hashContent embed files).store changed n = [] := by
    unfold relatedFold
    exact foldl_lookup_none _ _ changed [] hnone
  unfold get_related_files
  rw [hfold]
  rfl

/-- C1 (witness): the amended theorem applied to a concrete store populated
through `index_file` and a concrete colon-free changed path. -/
theorem c1_witness :
    get_related_files embedC distC (ingestAll hashC embedC [(c1File, false)]).store
      [("b.py")] 5 = [] :=
  c1_ingested_store_related_empty hashC embedC distC [(c1File, false)] [("b.py")] 5
    (by decide)

/-- C10: `get_related_files` never returns a result whose `file_path` is a
member of `changed_files`, for every store contents, changed set, and
result count: the `path not in changed_files` guard filters every match
before it is recorded in the `related` dict, and sorting only permutes the
recorded values. -/
theorem c10_no_changed_file_returned {Emb : Type} (embed : String → Emb)
    (dist : Emb → Emb → Int) (store : Store Emb) (changed : List String) (n : Nat)
    (r : SearchResult) (hr : r ∈ get_related_files embed dist store changed n) :
    r.file_path ∉ changed := by
  unfold get_related_files at hr
  rw [mem_sortByDist] at hr
  obtain ⟨k, hk⟩ := mem_dictValues.mp hr
  exact relNotChanged_relatedFold embed dist store changed n _ hk

/-- C10 (witness): the theorem applied to a concrete store holding
whole-file documents for `main.go` and `lib.go`, with `main.go` changed:
the returned result for `lib.go` is not a changed file. -/
theorem c10_witness : SearchResult.file_path c10res ∉ [("main.go")] :=
  c10_no_changed_file_returned embedC distC c10store [("main.go")] 5 c10res (by decide)

/-- Unfolding step of the window loop. -/
theorem chunkWindows_succ (c : String) (fuel start num : Nat) :
    chunkWindows c (fuel + 1) start num =
      if start < pyLen c then
        { id := "chunk_" ++ toString num,
          content := pySlice c start (start + CHUNK_SIZE),
          cmeta := .window num start (min (start + CHUNK_SIZE) (pyLen c)) } ::
          chunkWindows c fuel (start + (CHUNK_SIZE - CHUNK_OVERLAP)) (num + 1)
      else [] := rfl

/-- Length of the concrete 2100-character content. -/
theorem c2content_len : pyLen c2content = 2100 := by
  simp [c2content, pyLen]

/-- Evaluation of the window loop on any 2100-character content: the loop
runs for `start = 0` and `start = 1800` and stops at `start = 3600`. -/
theorem chunk_by_lines_at_2100 (content : String) (h : pyLen content = 2100) :
    chunk_by_lines content =
      [{ id := "chunk_0", content := pySlice content 0 2000,
         cmeta := .window 0 0 2000 },
       { id := "chunk_1", content := pySlice content 1800 3800,
         cmeta := .window 1 1800 2100 }] := by
  unfold chunk_by_lines
  rw [h]
  rw [if_neg (by norm_num [CHUNK_SIZE])]
  rw [show (2100 : Nat) + 1 = 2099 + 1 + 1 from rfl]
  rw [chunkWindows_succ, h, if_pos (by norm_num)]
  rw [show (2099 : Nat) + 1 = 2098 + 1 + 1 from rfl]
  rw [chunkWindows_succ, h]
  norm_num [CHUNK_SIZE, CHUNK_OVERLAP]
  refine ⟨by decide, by decide, ?_⟩
  rw [show (2099 : Nat) = 2098 + 1 from rfl, chunkWindows_succ, h]
  rw [if_neg (by norm_num)]

/-- C2 (counterexample): on a concrete 2100-character content the window
loop stops once `start = 3600` reaches the content length, so windowed
chunking does not produce 3 chunks. -/
theorem c2_counterexample : (chunk_by_lines c2content).length ≠ 3 := by
  rw [chunk_by_lines_at_2100 c2content c2content_len]
  decide

/-- C2 (amended): windowed chunking of any 2100-character content produces
exactly 2 chunks, at character offsets `[0,2000)` and `[1800,3800)` with
the second window clamped to the 2100-character content length; the third
window the claim expects never starts because `3600 ≥ 2100`. -/
theorem c2_windows_of_2100 (content : String) (h : pyLen content = 2100) :
    chunk_by_lines content =
      [{ id := "chunk_0", content := pySlice content 0 2000,
         cmeta := .window 0 0 2000 },
       { id := "chunk_1", content := pySlice content 1800 3800,
         cmeta := .window 1 1800 2100 }] :=
  chunk_by_lines_at_2100 content h

/-- C2 (witness): the amended theorem applied to a concrete 2100-character
content. -/
theorem c2_witness : (chunk_by_lines c2content).length = 2 := by
  rw [c2_windows_of_2100 c2content c2content_len]
  rfl

/-- Hash-cache hit: with `force = False` and a cached hash equal to the
current one, `index_file` returns 0 and leaves the state untouched. -/
theorem index_file_cache_hit {Emb : Type} (hashContent : String → String)
    (embed : String → Emb) (st : IngestState Emb) (f : PyFile)
    (h : dictGet st.cache f.rel_path = some f.fileHash) :
    index_file hashContent embed st f false = (0, st) := by
  simp [index_file, h]

/-- The chunk-and-upsert phase never touches the hash cache. -/
theorem indexChunks_cache {Emb : Type} (hashContent : String → String)
    (embed : String → Emb) (st : IngestState Emb) (f : PyFile) :
    (indexChunks hashContent embed st f).2.cache = st.cache := rfl

/-- After any non-forced `index_file` pass, the cache entry for the file
holds the file's current hash. -/
theorem index_file_cache_after {Emb : Type} (hashContent : String → String)
    (embed : String → Emb) (st : IngestState Emb) (f : PyFile) :
    dictGet (index_file hashContent embed st f false).2.cache f.rel_path =
      some f.fileHash := by
  by_cases h : dictGet st.cache f.rel_path = some f.fileHash
  · rw [index_file_cache_hit hashContent embed st f h]
    exact h
  · have hred : index_file hashContent embed st f false =
        indexChunks hashContent embed
          { st with cache := dictSet st.cache f.rel_path f.fileHash } f := by
      simp [index_file, h]
    rw [hred, indexChunks_cache]
    exact dictGet_dictSet_self st.cache f.rel_path f.fileHash

/-- C3 (counterexample): with `force = True` the cache assignment sits
inside the `if not force:` block, so a forced pass leaves the hash cache
unchanged — here the cache stays empty instead of holding the file's
current hash. -/
theorem c3_counterexample :
    dictGet (index_file hashC embedC { cache := [], store := [] } c3File true).2.cache
      (c3File.rel_path) = none := by decide

/-- C3 (amended): a forced pass (`force = True`) never updates the hash
cache; the cache entry is updated to the file's current whole-file hash
exactly in the non-forced pass whose cached hash misses or mismatches. -/
theorem c3_cache_updates {Emb : Type} (hashContent : String → String)
    (embed : String → Emb) :
    (∀ (st : IngestState Emb) (f : PyFile),
      (index_file hashContent embed st f true).2.cache = st.cache) ∧
    (∀ (st : IngestState Emb) (f : PyFile),
      dictGet st.cache f.rel_path ≠ some f.fileHash →
      dictGet (index_file hashContent embed st f false).2.cache f.rel_path =
        some f.fileHash) := by
  constructor
  · intro st f
    simp [index_file, indexChunks]
  · intro st f _
    exact index_file_cache_after hashContent embed st f

/-- C3 (witness): the amended theorem applied to a concrete non-forced pass
with an empty cache. -/
theorem c3_witness :
    dictGet (index_file hashC embedC { cache := [], store := [] } c3File false).2.cache
      (c3File.rel_path) = some (c3File.fileHash) :=
  (c3_cache_updates hashC embedC).2 { cache := [], store := [] } c3File (by decide)

/-- C4: indexing is idempotent on unchanged content.  A second non-forced
`index_file` call on the same file returns 0 with the whole state (hash
cache and vector store) untouched; and at chunk granularity, `add_chunk`
on a document id already stored with an identical `content_hash` computes
no embedding and performs no write (the `false` component), returning the
store unchanged. -/
theorem c4_idempotent {Emb : Type} (hashContent : String → String) (embed : String → Emb) :
    (∀ (st : IngestState Emb) (f : PyFile),
      index_file hashContent embed (index_file hashContent embed st f false).2 f false =
        (0, (index_file hashContent embed st f false).2)) ∧
    (∀ (store : Store Emb) (fp cid content : String) (d : Doc Emb),
      dictGet store (chunkDocId fp cid) = some d →
      d.content_hash = hashContent content →
      add_chunk hashContent embed store fp cid content =
        (chunkDocId fp cid, store, false)) := by
  constructor
  · intro st f
    exact index_file_cache_hit hashContent embed _ f
      (index_file_cache_after hashContent embed st f)
  · intro store fp cid content d hget hhash
    simp only [add_chunk, hget]
    rw [if_pos hhash]

/-- C4 (witness): the chunk-granularity part applied to a concrete store
already holding the chunk with an identical content hash. -/
theorem c4_witness :
    add_chunk hashC embedC c4store ("c.go") ("full") ("x") =
      (chunkDocId ("c.go") ("full"), c4store, false) :=
  (c4_idempotent hashC embedC).2 c4store ("c.go") ("full") ("x") c4doc
    (by decide) (by decide)

/-- C5 (counterexample): a Python file that parses successfully with zero
definitions (`"x = 1\n"`) is not chunked with the windowed chunker — the
two chunkings differ (ids `module` vs `full`). -/
theorem c5_counterexample :
    chunk_python ("x = 1\n") (some []) ≠ chunk_by_lines ("x = 1\n") := by decide

/-- C5 (amended): for every content that parses successfully but yields
zero function, method or class definitions, `_chunk_python` does not fall
back to windowed chunking: it emits a single `module` chunk holding the
first `CHUNK_SIZE` characters of the content. -/
theorem c5_zero_defs_module_chunk (content : String) :
    chunk_python content (some []) =
      [{ id := "module", content := pySlice content 0 CHUNK_SIZE,
         cmeta := .module }] := rfl

/-- C6 (counterexample): six changed files totalling 204 diff lines and no
related files score `1 + 1 = 2` points from two contributing conditions
(more than 100 lines, more than 5 files) — the risk level is `Medium`,
proving points were added — yet zero reason strings are emitted. -/
theorem c6_counterexample : calculate_risk_level c6files [] = ("Medium", []) := by decide

/-- C6 (amended): only the `> 500` lines, `> 10` files and both
related-files branches emit a reason; the `+1` branches for `> 100` lines
and `> 5` files add points silently.  Hence the number of reasons equals
the number of conditions holding among: total changes over 500, more than
10 files changed, and at least one related file — not the number of
point-contributing conditions. -/
theorem c6_reason_count (changed_files : List ChangedFile)
    (related_files : List SearchResult) :
    (calculate_risk_level changed_files related_files).2.length =
      (if totalChanges changed_files > 500 then 1 else 0) +
      (if changed_files.length > 10 then 1 else 0) +
      (if related_files.length > 0 then 1 else 0) := by
  simp only [calculate_risk_level,
    apply_ite (Prod.snd : String × List String → List String),
    apply_ite (Prod.snd : Nat × List String → List String),
    apply_ite (List.length : List String → Nat),
    ite_self, List.length_append, List.length_cons, List.length_nil]
  split_ifs <;> omega

/-- C7: `remove_file` returns `True` for every file path and every store
contents — also when no document with that id exists — because ChromaDB's
`delete` raises no exception for a missing id, making the `except` branch
that would return `False` unreachable.  Evaluated at the failing input of
the claim (a store without the document), this contradicts the documented
and specified behaviour of returning `False` when nothing was removed. -/
theorem c7_remove_file_always_true {Emb : Type} (store : Store Emb) (file_path : String) :
    (remove_file store file_path).1 = true := rfl

/-- C8 (counterexample): document ids are not unique across distinct
`(file_path, chunk_id)` pairs: the distinct paths `"a/b"` and `"a.b"` both
sanitise to `"a_b"`, so both pairs receive the id `"a_b::c"`. -/
theorem c8_counterexample :
    chunkDocId ("a/b") ("c") = chunkDocId ("a.b") ("c") ∧ ("a/b" : String) ≠ ("a.b" : String) := by
  decide

/-- C8 (amended): the document id returned by `add_chunk` is a
deterministic function of `(file_path, chunk_id)` alone (independent of the
store and the content), and ids are unique for pairs whose components
contain none of the characters `/`, `.` and `:` that sanitisation or the
`"::"` separator can conflate; for general pairs distinct inputs may
collide (see the counterexample). -/
theorem c8_doc_id_determinism {Emb : Type} (hashContent : String → String)
    (embed : String → Emb) :
    (∀ (store1 store2 : Store Emb) (fp cid ca cb : String),
      (add_chunk hashContent embed store1 fp cid ca).1 =
        (add_chunk hashContent embed store2 fp cid cb).1) ∧
    (∀ p1 c1 p2 c2 : String, idSafe p1 → idSafe c1 → idSafe p2 → idSafe c2 →
      chunkDocId p1 c1 = chunkDocId p2 c2 → p1 = p2 ∧ c1 = c2) := by
  constructor
  · intro s1 s2 fp cid ca cb
    rw [add_chunk_fst, add_chunk_fst]
  · intro p1 c1 p2 c2 h1 h2 h3 h4 heq
    rw [chunkDocId_eq_of_safe h1 h2, chunkDocId_eq_of_safe h3 h4] at heq
    have hdata : p1.data ++ ':' :: ':' :: c1.data = p2.data ++ ':' :: ':' :: c2.data := by
      have hd := congrArg String.data heq
      rw [String.data_append, String.data_append, String.data_append,
        String.data_append, show ("::" : String).data = [':', ':'] from rfl] at hd
      simpa [List.append_assoc] using hd
    have hp1 : ':' ∉ p1.data := fun hmem => (h1 ':' hmem).2.2 rfl
    have hp2 : ':' ∉ p2.data := fun hmem => (h3 ':' hmem).2.2 rfl
    obtain ⟨e1, e2⟩ := append_sep_inj c1.data c2.data p1.data p2.data hp1 hp2 hdata
    exact ⟨String.ext e1, String.ext e2⟩

/-- C8 (witness): the amended theorem applied at concrete collision-free
components. -/
theorem c8_witness : ("a" : String) = ("a" : String) ∧ ("b" : String) = ("b" : String) :=
  (c8_doc_id_determinism hashC embedC).2 ("a") ("b") ("a") ("b")
    (by decide) (by decide) (by decide) (by decide) rfl

/-- One call never clears the fallback flag. -/
theorem embCallStep_fallback_mono (st : EmbeddingModelState) (c : EmbCall)
    (h : st.fallback = true) : (embCallStep st c).fallback = true := by
  cases c <;> simp [embCallStep, embedStep, embedBatchStep, dimensionStep, h]

/-- C9: fallback mode is irreversible for the instance's lifetime: from any
state with `is_fallback = true`, every sequence of `embed`, `embed_batch`,
`dimension` and `is_fallback` calls — under every behaviour of the external
model backend — leaves `is_fallback = true`; no code path clears the flag. -/
theorem c9_fallback_irreversible (st : EmbeddingModelState) (calls : List EmbCall)
    (h : st.fallback = true) : (embRun st calls).fallback = true := by
  induction calls generalizing st with
  | nil => exact h
  | cons c cs ih => exact ih _ (embCallStep_fallback_mono st c h)

/-- C9 (witness): the theorem applied to a concrete fallback state and
call sequence. -/
theorem c9_witness :
    (embRun { fallback := true, modelLoaded := false }
      [EmbCall.embedCall true true, EmbCall.dimensionCall true true,
       EmbCall.embedBatchCall false true false, EmbCall.isFallbackCall]).fallback = true :=
  c9_fallback_irreversible { fallback := true, modelLoaded := false } _ rfl

end GhostStack
